import Mathlib

/-!
Shallow embedding of the core slice of the webb.js repository:

* `fetchRPCTreeLeaves` — paginated merkle-tree leaf retrieval (LeafFetcher).
* `polkadotTx` — direct extrinsic submission with dispatch-error decoding
  (TransactionSubmitter).
* `ProvingManagerWrapper` — the proof worker's message handler
  (ProvingCoordinator).
* The relayer inbound message schema (RelayerClient types).

External collaborators (the leaf RPC endpoint, the note deserializer, the
wasm proof generator) are modelled as explicit function parameters; promise
settlement is modelled as the ordered list of resolve/reject calls the code
makes, the settled value being the first such call (JavaScript promises
ignore every later settlement attempt).
-/

namespace WebbJs

/-! ### LeafFetcher: `fetchRPCTreeLeaves`

The source loops `while (done === false)`, requesting
`api.rpc.mt.getLeaves(treeId, from, to)` with `from = 0`, `to = 511`
initially; an empty page ends the loop, a non-empty page is decoded with
`.toU8a()` and appended, and the window advances by 511.

`rpc start stop` models the partially applied RPC
`api.rpc.mt.getLeaves(treeId, ·, ·)`; `toU8a` models the codec decoding of
each returned value.  `from`/`to` are Lean keywords, so the loop variables
are named `start`/`stop`.  The loop is given explicit fuel (one unit per RPC
request) to be total; `calls` counts the non-empty pages appended so far,
and the returned triple is (leaves, non-empty-page requests, total requests
including the single terminating empty-page request). -/
def fetchLoop {β α : Type} (toU8a : β → α) (rpc : Nat → Nat → List β)
    (fuel start stop : Nat) (leaves : List α) (calls : Nat) :
    Option (List α × Nat × Nat) :=
  match fuel with
  | 0 => none
  | fuel' + 1 =>
    let treeLeaves := rpc start stop
    if treeLeaves.isEmpty then some (leaves, calls, calls + 1)
    else
      fetchLoop toU8a rpc fuel' stop (stop + 511)
        (leaves ++ treeLeaves.map toU8a) (calls + 1)

/-- `fetchRPCTreeLeaves`: run the loop from `from = 0`, `to = 511` with an
empty accumulator, as in the source. -/
def fetchRPCTreeLeaves {β α : Type} (toU8a : β → α)
    (rpc : Nat → Nat → List β) (fuel : Nat) : Option (List α × Nat × Nat) :=
  fetchLoop toU8a rpc fuel 0 511 [] 0

/-- The honest leaf RPC of a tree whose on-chain leaves are `L`, following
the Leaf RPC contract: `(treeId, fromIndex, toIndex)` returns the leaves
with indices in `[fromIndex, toIndex)`, and an empty array signals
end-of-data. -/
def rpcOfTree {β : Type} (L : List β) : Nat → Nat → List β :=
  fun start stop => (L.drop start).take (stop - start)

/-! ### TransactionSubmitter: `polkadotTx`

The source wraps `tx.signAndSend(signer, callback)` in a `Promise`.  The
callback filters `result.events` down to the `system` section and, when
`status.isInBlock || status.isFinalized`, walks the events in order:

* `ExtrinsicFailed`: `message` starts as `dispatchError.type`; if
  `dispatchError.isModule`, `registry.findMetaError` yields a
  `section`/`name` pair (`message = section.name`), and if that lookup
  throws, the `catch` block calls `reject(message)` with the raw type tag
  (after which control still reaches the outer `reject(message)`); else if
  `dispatchError.isToken`, `message = type.tokenSubtype`; finally
  `reject(message)`.
* `ExtrinsicSuccess`: `resolve(tx.hash.toString())`.

A transport failure (`.catch`) calls `reject(e)` and the callback never
runs.  The unsubscribe handle returned by `signAndSend` is discarded. -/

/-- The two status predicates the source reads from `result.status`. -/
structure TxStatus where
  isInBlock : Bool
  isFinalized : Bool
deriving DecidableEq

/-- Model of a `DispatchError` as the source inspects it: `typeTag` is
`dispatchError.type`; `moduleError = some (s, n)` models a successful
`registry.findMetaError` returning `{section := s, name := n}`, `none`
models the lookup throwing; `tokenType` is `dispatchError.asToken.type`. -/
structure DispatchError where
  typeTag : String
  isModule : Bool
  isToken : Bool
  moduleError : Option (String × String)
  tokenType : String
deriving DecidableEq

/-- One entry of `result.events`.  `sectionName` is `event.section`
(`section` is a Lean keyword); `data0` is the first element of
`event.data`, read only in the `ExtrinsicFailed` branch. -/
structure EventRecord where
  sectionName : String
  method : String
  data0 : DispatchError
deriving DecidableEq

/-- One invocation of the `signAndSend` status callback. -/
structure SubmitResult where
  status : TxStatus
  events : List EventRecord
deriving DecidableEq

/-- A call the executor makes on the promise: `resolve h` or `reject m`. -/
inductive SettleAction where
  | resolve (hash : String)
  | reject (message : String)
deriving DecidableEq

/-- The input a `polkadotTx` call observes: either the ordered trace of
status callback invocations, or a transport-level submission failure `e`
(in which case the callback never runs and `.catch` rejects with `e`). -/
inductive SubmissionInput where
  | ok (trace : List SubmitResult)
  | err (e : String)
deriving DecidableEq

/-- The resolve/reject calls the body of the event loop makes for one
system event (in program order), mirroring the `ExtrinsicFailed` /
`ExtrinsicSuccess` branches — including the double `reject` when the
metadata lookup throws (the `catch` block rejects and then the outer
`reject(message)` runs as well). -/
def eventActions (txHash : String) (ev : EventRecord) : List SettleAction :=
  if ev.method = "ExtrinsicFailed" then
    let d := ev.data0
    let message := d.typeTag
    if d.isModule then
      match d.moduleError with
      | some sn => [.reject (sn.1 ++ "." ++ sn.2)]
      | none => [.reject message, .reject message]
    else if d.isToken then
      [.reject (d.typeTag ++ "." ++ d.tokenType)]
    else
      [.reject message]
  else if ev.method = "ExtrinsicSuccess" then
    [.resolve txHash]
  else []

/-- The resolve/reject calls one status callback invocation makes: the
events are filtered to `section === 'system'` and only inspected when the
status is in-block or finalized. -/
def updateActions (txHash : String) (r : SubmitResult) : List SettleAction :=
  let events := r.events.filter (fun ev => ev.sectionName == "system")
  if r.status.isInBlock || r.status.isFinalized then
    events.flatMap (eventActions txHash)
  else []

/-- All resolve/reject calls a `polkadotTx` call makes, in order. -/
def settleCalls (txHash : String) : SubmissionInput → List SettleAction
  | .ok trace => trace.flatMap (updateActions txHash)
  | .err e => [.reject e]

/-- The promise's settled value: the first resolve/reject call wins and
every later one is ignored; `none` means the call never settles. -/
def settlement (txHash : String) (inp : SubmissionInput) :
    Option SettleAction :=
  (settleCalls txHash inp).head?

/-- The system events the callback actually walks, across the whole trace:
events of in-block/finalized updates, filtered to the `system` section, in
delivery order. -/
def relevantEvents (trace : List SubmitResult) : List EventRecord :=
  trace.flatMap fun r =>
    if r.status.isInBlock || r.status.isFinalized then
      r.events.filter (fun ev => ev.sectionName == "system")
    else []

/-- Whether a system event settles the promise: both discriminants are
checked by the source. -/
def settlingEvent (ev : EventRecord) : Bool :=
  ev.method == "ExtrinsicSuccess" || ev.method == "ExtrinsicFailed"

/-- The rejection string the failure branch computes for a dispatch
error. -/
def failMessage (d : DispatchError) : String :=
  if d.isModule then
    match d.moduleError with
    | some sn => sn.1 ++ "." ++ sn.2
    | none => d.typeTag
  else if d.isToken then d.typeTag ++ "." ++ d.tokenType
  else d.typeTag

/-- The settlement a settling system event produces. -/
def outcomeOf (txHash : String) (ev : EventRecord) : SettleAction :=
  if ev.method = "ExtrinsicFailed" then .reject (failMessage ev.data0)
  else .resolve txHash

/-- An `ExtrinsicSuccess` system event is observed on some in-block or
finalized status update of the trace. -/
def successObserved (trace : List SubmitResult) : Bool :=
  trace.any fun r =>
    (r.status.isInBlock || r.status.isFinalized) &&
      r.events.any fun ev =>
        ev.sectionName == "system" && ev.method == "ExtrinsicSuccess"

/-! ### ProvingCoordinator: `ProvingManagerWrapper`

The worker's message listener reads `Object.keys(message)[0]` and switches
on it: `"proof"` runs `this.proof(message.proof!)` and posts
`{name: "proof", data: proof}`; `"destroy"` calls `terminate()`; any other
first key matches no case and nothing happens (the switch has no default).

`this.proof` deserializes the note, fills a `JsProofInputBuilder`
field-by-field (`setLeaves`, `setRelayer`, `setRecipient`,
`setLeafIndex(String(leafIndex))`, `setFee(String(fee))`,
`setRefund(String(refund))`, `setPk(u8aToHex(pk).replace("0x", ""))`),
builds the proof input, calls `generate_proof_js`, and repacks the result
as `{proof, root, nullifierHash}`.  `Note.deserialize` and
`generate_proof_js` are opaque wasm primitives, modelled as function
parameters. -/

/-- `ProvingManagerSetupInput` — bytes are modelled as `List Nat`. -/
structure ProvingManagerSetupInput where
  note : String
  relayer : String
  recipient : String
  leaves : List (List Nat)
  leafIndex : Nat
  fee : Nat
  refund : Nat
  provingKey : List Nat
deriving DecidableEq

/-- The contents of the `JsProofInputBuilder` after the field-by-field
setters have run. -/
structure ProofInputModel where
  leaves : List (List Nat)
  relayer : String
  recipient : String
  leafIndex : String
  fee : String
  refund : String
  pk : String
deriving DecidableEq

/-- `ProofI` — the response payload `{proof, root, nullifierHash}`. -/
structure ProofI where
  proof : List Nat
  root : List Nat
  nullifierHash : List Nat
deriving DecidableEq

/-- One hexadecimal digit, lowercase (as `u8aToHex` produces). -/
def hexDigit (n : Nat) : Char :=
  if n < 10 then Char.ofNat (48 + n) else Char.ofNat (87 + n)

/-- Two lowercase hex characters for one byte. -/
def byteToHex (b : Nat) : String :=
  String.mk [hexDigit (b / 16), hexDigit (b % 16)]

/-- `u8aToHex` from `@polkadot/util`: `"0x"` followed by two lowercase hex
characters per byte. -/
def u8aToHex (bs : List Nat) : String :=
  "0x" ++ String.join (bs.map byteToHex)

/-- First-occurrence replacement on character lists: scan left to right
and, at the first position where `pat` is a prefix, splice in `sub` and
keep the remainder unchanged. -/
def replaceFirstChars (s pat sub : List Char) : List Char :=
  match s with
  | [] => []
  | c :: rest =>
    if pat.isPrefixOf (c :: rest) then sub ++ (c :: rest).drop pat.length
    else c :: replaceFirstChars rest pat sub

/-- JavaScript `String.prototype.replace` with a string pattern: replace
only the first occurrence of `pat` (here always `"0x"`, non-empty). -/
def replaceFirst (s pat sub : String) : String :=
  ⟨replaceFirstChars s.data pat.data sub.data⟩

/-- The proof input `this.proof` builds field-by-field from the setup
input. -/
def mkProofInput (i : ProvingManagerSetupInput) : ProofInputModel :=
  { leaves := i.leaves
    relayer := i.relayer
    recipient := i.recipient
    leafIndex := toString i.leafIndex
    fee := toString i.fee
    refund := toString i.refund
    pk := replaceFirst (u8aToHex i.provingKey) "0x" "" }

/-- `ProvingManagerWrapper.proof`: deserialize the note, build the proof
input, invoke the external generator, repack the result. -/
def wrapperProof {ν : Type} (deserialize : String → ν)
    (generate : ν → ProofInputModel → ProofI)
    (i : ProvingManagerSetupInput) : ProofI :=
  let note := deserialize i.note
  let proofInput := mkProofInput i
  let p := generate note proofInput
  { proof := p.proof, root := p.root, nullifierHash := p.nullifierHash }

/-- An inbound worker message as the listener sees it: its first key
(`Object.keys(message)[0]`, `none` for an empty object) and the `proof`
payload if present.  In the source protocol a `"proof"` first key always
carries its payload (`message.proof!`). -/
structure WorkerMessage where
  firstKey : Option String
  proofPayload : Option ProvingManagerSetupInput
deriving DecidableEq

/-- What the listener does in response to one message. -/
inductive WorkerAction where
  | post (name : String) (data : ProofI)
  | terminate
deriving DecidableEq

/-- The worker's message listener for a single message (the synchronous
view of the `switch`): `"proof"` posts exactly one `{name: "proof", data}`
envelope, `"destroy"` terminates, anything else matches no case. -/
def handleMessage {ν : Type} (deserialize : String → ν)
    (generate : ν → ProofInputModel → ProofI) (m : WorkerMessage) :
    List WorkerAction :=
  match m.firstKey with
  | some k =>
    if k = "proof" then
      match m.proofPayload with
      | some input => [.post "proof" (wrapperProof deserialize generate input)]
      | none => []
    else if k = "destroy" then [.terminate]
    else []
  | none => []

/-- The asynchronous view of the worker, needed because `this.proof` is
awaited: an event is either the arrival of a message or the completion of
the awaited proof computation of job `j`. -/
inductive WorkerEvent where
  | message (m : WorkerMessage)
  | complete (j : Nat)
deriving DecidableEq

/-- Worker state: `terminated` is set by `terminate()`; `pending` holds the
jobs whose `await this.proof(...)` has not completed; `posts` are the
response envelopes posted so far, in order. -/
structure WorkerState where
  terminated : Bool
  pending : List (Nat × ProvingManagerSetupInput)
  nextId : Nat
  posts : List (String × ProofI)
deriving DecidableEq

/-- The worker before any message. -/
def initialWorkerState : WorkerState :=
  { terminated := false, pending := [], nextId := 0, posts := [] }

/-- One step of the asynchronous worker.  A terminated worker does nothing
(its listener and suspended continuations are gone).  A `"proof"` message
starts a job; `"destroy"` terminates unconditionally; a completion of a
pending job posts its single `{name: "proof", data}` envelope.  Nothing
ever drains or signals `pending` on termination. -/
def workerStep {ν : Type} (deserialize : String → ν)
    (generate : ν → ProofInputModel → ProofI)
    (s : WorkerState) (e : WorkerEvent) : WorkerState :=
  if s.terminated then s
  else
    match e with
    | .message m =>
      match m.firstKey with
      | some k =>
        if k = "proof" then
          match m.proofPayload with
          | some input =>
            { s with pending := s.pending ++ [(s.nextId, input)],
                     nextId := s.nextId + 1 }
          | none => s
        else if k = "destroy" then { s with terminated := true }
        else s
      | none => s
    | .complete j =>
      match s.pending.find? (fun p => p.1 == j) with
      | some p =>
        { s with pending := s.pending.filter (fun q => q.1 != j),
                 posts := s.posts ++
                   [("proof", wrapperProof deserialize generate p.2)] }
      | none => s

/-- Run the worker over a schedule of events. -/
def runWorker {ν : Type} (deserialize : String → ν)
    (generate : ν → ProofInputModel → ProofI)
    (events : List WorkerEvent) : WorkerState :=
  events.foldl (workerStep deserialize generate) initialWorkerState

/-! ### RelayerClient inbound message schema

Embedded from the TypeScript declarations: every field below is optional
exactly where the source marks it `?`. -/

/-- `Finalized` — `{txHash}`. -/
structure Finalized where
  txHash : String
deriving DecidableEq

/-- `Errored` — `{reason}`. -/
structure Errored where
  reason : String
deriving DecidableEq

/-- `Withdraw` — the source interface has FOUR optional fields:
`finalized?`, `errored?`, `connected?`, `connecting?`. -/
structure Withdraw where
  finalized : Option Finalized
  errored : Option Errored
  connected : Option String
  connecting : Option String
deriving DecidableEq

/-- `RelayerMessage` — `{withdraw?, error?, network?}`, each optional and
independent. -/
structure RelayerMessage where
  withdraw : Option Withdraw
  error : Option String
  network : Option String
deriving DecidableEq

/-- Number of populated top-level keys of a relayer message. -/
def populatedKeys (m : RelayerMessage) : Nat :=
  (if m.withdraw.isSome then 1 else 0) +
    (if m.error.isSome then 1 else 0) +
    (if m.network.isSome then 1 else 0)

/-- Modelled from the spec: the claimed inbound schema — a tagged union
with exactly one populated key, whose withdraw payload carries either
`finalized{txHash}` or `errored{reason}` and nothing else.  This is the
comparator for the refinement claim about `RelayerMessage`; the consuming
relayer-client code is not part of the sources. -/
inductive RelayerMessageSpec where
  | withdrawFinalized (txHash : String)
  | withdrawErrored (reason : String)
  | errorMessage (s : String)
  | networkMessage (s : String)
deriving DecidableEq

/-- The evident embedding of the claimed union into the source type. -/
def specToMessage : RelayerMessageSpec → RelayerMessage
  | .withdrawFinalized h =>
    { withdraw := some { finalized := some { txHash := h }, errored := none,
                         connected := none, connecting := none },
      error := none, network := none }
  | .withdrawErrored r =>
    { withdraw := some { finalized := none, errored := some { reason := r },
                         connected := none, connecting := none },
      error := none, network := none }
  | .errorMessage s => { withdraw := none, error := some s, network := none }
  | .networkMessage s => { withdraw := none, error := none, network := some s }

/-- The claim's withdraw-payload shape: exactly one of `finalized` /
`errored`, and nothing else populated. -/
def withdrawShapeOk (w : Withdraw) : Bool :=
  (w.finalized.isSome != w.errored.isSome) &&
    !w.connected.isSome && !w.connecting.isSome

/-- A dispatch-error value whose fields are never read (used as the
`data0` of success events, which the source does not inspect). -/
def emptyDispatchError : DispatchError :=
  { typeTag := "", isModule := false, isToken := false, moduleError := none,
    tokenType := "" }

/-- A token-class dispatch error of type `Token`, subtype `Frozen`. -/
def tokenFrozenError : DispatchError :=
  { typeTag := "Token", isModule := false, isToken := true,
    moduleError := none, tokenType := "Frozen" }

/-- An in-block status update carrying a system `ExtrinsicFailed`
(`Token.Frozen`) followed by a system `ExtrinsicSuccess`. -/
def failedThenSuccessUpdate : SubmitResult :=
  { status := { isInBlock := true, isFinalized := false },
    events :=
      [{ sectionName := "system", method := "ExtrinsicFailed",
         data0 := tokenFrozenError },
       { sectionName := "system", method := "ExtrinsicSuccess",
         data0 := emptyDispatchError }] }

/-- An in-block status update carrying a single system
`ExtrinsicSuccess`. -/
def successUpdate : SubmitResult :=
  { status := { isInBlock := true, isFinalized := false },
    events := [{ sectionName := "system", method := "ExtrinsicSuccess",
                 data0 := emptyDispatchError }] }

/-- A small concrete proof-request payload. -/
def exampleSetupInput : ProvingManagerSetupInput :=
  { note := "note", relayer := "r", recipient := "c", leaves := [],
    leafIndex := 0, fee := 0, refund := 0, provingKey := [] }

/-! ## Theorems -/

/-- Loop invariant of `fetchLoop` against the honest RPC of a tree: from
window start `start`, with enough fuel, the loop appends exactly the
remaining leaves in order and makes `⌈remaining/511⌉` non-empty-page
requests plus one final empty-page request. -/
theorem fetchLoop_rpcOfTree {β α : Type} (toU8a : β → α) (L : List β) :
    ∀ (fuel start : Nat) (acc : List α) (calls : Nat),
      ((L.drop start).length + 510) / 511 + 1 ≤ fuel →
      fetchLoop toU8a (rpcOfTree L) fuel start (start + 511) acc calls =
        some (acc ++ (L.drop start).map toU8a,
              calls + ((L.drop start).length + 510) / 511,
              calls + ((L.drop start).length + 510) / 511 + 1) := by
  intro fuel
  induction fuel with
  | zero => intro start acc calls h; omega
  | succ fuel ih =>
    intro start acc calls h
    cases hL : L.drop start with
    | nil =>
      have hrpc : rpcOfTree L start (start + 511) = [] := by
        simp [rpcOfTree, hL]
      simp [fetchLoop, hrpc, hL]
    | cons b bs =>
      have h1 : start + 511 - start = 511 := by omega
      have hrpc : rpcOfTree L start (start + 511) = (L.drop start).take 511 := by
        simp [rpcOfTree, h1]
      have hne : ((L.drop start).take 511).isEmpty = false := by
        rw [hL]; rfl
      have hn : 1 ≤ (L.drop start).length := by rw [hL]; simp
      have hdd : L.drop (start + 511) = (L.drop start).drop 511 := by
        rw [List.drop_drop, Nat.add_comm]
      have hlen : (L.drop (start + 511)).length = (L.drop start).length - 511 := by
        rw [hdd, List.length_drop]
      have hfuel : ((L.drop (start + 511)).length + 510) / 511 + 1 ≤ fuel := by
        rw [hlen]; omega
      simp only [fetchLoop, hrpc, hne, Bool.false_eq_true, if_false]
      rw [ih (start + 511) (acc ++ ((L.drop start).take 511).map toU8a)
            (calls + 1) hfuel]
      simp only [Option.some.injEq, Prod.mk.injEq]
      refine ⟨?_, ?_, ?_⟩
      · rw [hdd, List.append_assoc, ← List.map_append, List.take_append_drop,
            hL]
      · rw [hlen, hL]; simp only [List.length_cons]; omega
      · rw [hlen, hL]; simp only [List.length_cons]; omega

set_option maxRecDepth 100000 in
/-- Claim C1: for every tree with `N` leaves and fixed page size 511,
`fetchRPCTreeLeaves` requests pages `[from, to)` sequentially from
`from = 0`, appends each non-empty page, advances by 511, stops at the
first empty page without appending it, and returns exactly `N` leaves in
on-chain index order after `⌈N/511⌉` non-empty-page requests plus one
terminating empty-page request; concretely, an RPC returning 511 leaves
for `[0, 511)`, 200 for `[511, 1022)` and none for `[1022, 1533)` yields
711 leaves after exactly 3 calls. -/
theorem fetchRPCTreeLeaves_pagination :
    (∀ (β α : Type) (toU8a : β → α) (L : List β) (fuel : Nat),
        (L.length + 510) / 511 + 1 ≤ fuel →
        fetchRPCTreeLeaves toU8a (rpcOfTree L) fuel =
          some (L.map toU8a, (L.length + 510) / 511,
                (L.length + 510) / 511 + 1)) ∧
      fetchRPCTreeLeaves (fun b : Nat => b) (rpcOfTree (List.range 711)) 3 =
        some (List.range 711, 2, 3) := by
  constructor
  · intro β α toU8a L fuel h
    have h0 : ((L.drop 0).length + 510) / 511 + 1 ≤ fuel := by simpa using h
    have hmain := fetchLoop_rpcOfTree toU8a L fuel 0 [] 0 h0
    simpa [fetchRPCTreeLeaves] using hmain
  · rfl

/-- Witness for C1 at a concrete three-leaf tree with fuel 2. -/
theorem fetchRPCTreeLeaves_pagination_witness :
    fetchRPCTreeLeaves (fun b : Nat => b) (rpcOfTree [10, 20, 30]) 2 =
      some ([10, 20, 30], 1, 2) :=
  fetchRPCTreeLeaves_pagination.1 Nat Nat (fun b => b) [10, 20, 30] 2
    (by norm_num)

/-- Claim C9: fetching twice against the same unmutated leaf RPC (both
runs observe the same page contents for the same windows) returns two
identical leaf sequences. -/
theorem fetchRPCTreeLeaves_idempotent :
    ∀ (β α : Type) (toU8a : β → α) (rpcA rpcB : Nat → Nat → List β)
      (fuel : Nat),
      (∀ s t, rpcA s t = rpcB s t) →
      fetchRPCTreeLeaves toU8a rpcA fuel =
        fetchRPCTreeLeaves toU8a rpcB fuel := by
  intro β α toU8a rpcA rpcB fuel h
  have hfun : rpcA = rpcB := funext fun s => funext fun t => h s t
  rw [hfun]

/-- Witness for C9 at a concrete tree RPC. -/
theorem fetchRPCTreeLeaves_idempotent_witness :
    fetchRPCTreeLeaves (fun b : Nat => b) (rpcOfTree [1, 2, 3]) 2 =
      fetchRPCTreeLeaves (fun b : Nat => b) (rpcOfTree [1, 2, 3]) 2 :=
  fetchRPCTreeLeaves_idempotent Nat Nat (fun b => b) (rpcOfTree [1, 2, 3])
    (rpcOfTree [1, 2, 3]) 2 (fun _ _ => rfl)

/-- `updateActions` expressed through the relevant (system, in-block or
finalized) events of one update. -/
theorem updateActions_eq (txHash : String) (r : SubmitResult) :
    updateActions txHash r =
      (if r.status.isInBlock || r.status.isFinalized then
          r.events.filter (fun ev => ev.sectionName == "system")
        else []).flatMap (eventActions txHash) := by
  unfold updateActions
  split <;> simp_all

/-- The settle calls of a whole trace are exactly the per-event actions of
its relevant events, in order. -/
theorem settleCalls_ok (txHash : String) (trace : List SubmitResult) :
    settleCalls txHash (.ok trace) =
      (relevantEvents trace).flatMap (eventActions txHash) := by
  induction trace with
  | nil => rfl
  | cons r rest ih =>
    have hr := updateActions_eq txHash r
    simp only [settleCalls, relevantEvents, List.flatMap_cons,
      List.flatMap_append] at ih ⊢
    rw [hr, ih]

/-- A failed event's first settle call rejects with `failMessage`. -/
theorem eventActions_head_failed (txHash : String) (ev : EventRecord)
    (hf : ev.method = "ExtrinsicFailed") :
    (eventActions txHash ev).head? =
      some (.reject (failMessage ev.data0)) := by
  simp only [eventActions, failMessage, hf, if_true]
  by_cases hm : ev.data0.isModule
  · cases hmo : ev.data0.moduleError <;> simp [hm, hmo]
  · by_cases ht : ev.data0.isToken <;> simp [hm, ht]

/-- The first settle call of a stream of system events is the outcome of
the first settling event. -/
theorem head_flatMap_eventActions (txHash : String) :
    ∀ evs : List EventRecord,
      (evs.flatMap (eventActions txHash)).head? =
        (evs.find? settlingEvent).map (outcomeOf txHash) := by
  intro evs
  induction evs with
  | nil => rfl
  | cons ev rest ih =>
    rw [List.flatMap_cons, List.head?_append, ih]
    cases hs : settlingEvent ev with
    | false =>
      have hf : ¬ ev.method = "ExtrinsicFailed" := by
        intro hc; simp [settlingEvent, hc] at hs
      have hsu : ¬ ev.method = "ExtrinsicSuccess" := by
        intro hc; simp [settlingEvent, hc] at hs
      rw [List.find?_cons_of_neg _ (by simp [hs])]
      simp [eventActions, hf, hsu]
    | true =>
      rw [List.find?_cons_of_pos _ hs]
      by_cases hf : ev.method = "ExtrinsicFailed"
      · rw [eventActions_head_failed txHash ev hf]
        simp [outcomeOf, hf]
      · have hsu : ev.method = "ExtrinsicSuccess" := by
          simp [settlingEvent, hf] at hs; exact hs
        simp [eventActions, outcomeOf, hf, hsu]

/-- Characterization of the settled value of a `polkadotTx` call: the
outcome of the first settling system event on an in-block/finalized
status update, if any. -/
theorem settlement_ok_eq (txHash : String) (trace : List SubmitResult) :
    settlement txHash (.ok trace) =
      ((relevantEvents trace).find? settlingEvent).map (outcomeOf txHash) := by
  rw [settlement, settleCalls_ok, head_flatMap_eventActions]

/-- A success event among the relevant events means a success was observed
on an in-block/finalized status update. -/
theorem successObserved_of_mem (trace : List SubmitResult)
    (ev : EventRecord) (hmem : ev ∈ relevantEvents trace)
    (hs : ev.method = "ExtrinsicSuccess") : successObserved trace = true := by
  simp only [successObserved, List.any_eq_true]
  simp only [relevantEvents, List.mem_flatMap] at hmem
  obtain ⟨r, hr, hev⟩ := hmem
  refine ⟨r, hr, ?_⟩
  cases hcond : (r.status.isInBlock || r.status.isFinalized) with
  | false => simp [hcond] at hev
  | true =>
    have hev2 : ev ∈ r.events ∧ ev.sectionName = "system" := by
      simpa [hcond, List.mem_filter] using hev
    simp only [hcond, Bool.true_and, List.any_eq_true]
    exact ⟨ev, hev2.1, by simp [hev2.2, hs]⟩

/-- Claim C2 counterexample: on an in-block status update whose system
events are `ExtrinsicFailed` (token `Token.Frozen`) followed by
`ExtrinsicSuccess`, a success event IS observed on an in-block status, yet
the call rejects (the failure event settles the promise first) — so
"resolves iff a success event is observed on an in-block/finalized
status" is false as stated. -/
theorem polkadotTx_resolve_iff_success_counterexample :
    successObserved [failedThenSuccessUpdate] = true ∧
      settlement "0xabc" (.ok [failedThenSuccessUpdate]) =
        some (.reject "Token.Frozen") := by
  constructor <;> rfl

/-- Claim C2 (amended): `polkadotTx` resolves with the extrinsic's hash
iff the FIRST settling system event observed on an in-block/finalized
status update is an `ExtrinsicSuccess` (an earlier `ExtrinsicFailed`
settles the promise first); and a status reaching in-block with no
success event among the system events never by itself causes
resolution. -/
theorem polkadotTx_resolve_characterization :
    ∀ (txHash : String) (trace : List SubmitResult),
      ((settlement txHash (.ok trace) = some (.resolve txHash)) ↔
        (∃ ev, (relevantEvents trace).find? settlingEvent = some ev ∧
          ev.method = "ExtrinsicSuccess")) ∧
      (successObserved trace = false →
        ∀ h, settlement txHash (.ok trace) ≠ some (.resolve h)) := by
  intro txHash trace
  constructor
  · rw [settlement_ok_eq]
    constructor
    · intro hres
      rcases Option.map_eq_some'.mp hres with ⟨ev, hfind, hout⟩
      refine ⟨ev, hfind, ?_⟩
      by_cases hf : ev.method = "ExtrinsicFailed"
      · simp [outcomeOf, hf] at hout
      · have hset := List.find?_some hfind
        simp [settlingEvent, hf] at hset
        exact hset
    · rintro ⟨ev, hfind, hs⟩
      rw [hfind]
      simp [outcomeOf, hs]
  · intro hnos h hres
    rw [settlement_ok_eq] at hres
    rcases Option.map_eq_some'.mp hres with ⟨ev, hfind, hout⟩
    have hset := List.find?_some hfind
    have hmem := List.mem_of_find?_eq_some hfind
    by_cases hf : ev.method = "ExtrinsicFailed"
    · simp [outcomeOf, hf] at hout
    · have hs : ev.method = "ExtrinsicSuccess" := by
        simp [settlingEvent, hf] at hset; exact hset
      have hobs := successObserved_of_mem trace ev hmem hs
      rw [hobs] at hnos
      exact Bool.noConfusion hnos

/-- Witness for the amended C2: a call that observes no success event
(empty trace) does not resolve. -/
theorem polkadotTx_resolve_characterization_witness :
    settlement "0xa" (.ok []) ≠ some (.resolve "0xa") :=
  (polkadotTx_resolve_characterization "0xa" []).2 rfl "0xa"

/-- Claim C3: observing a system `ExtrinsicFailed` event on an in-block or
finalized status rejects with: `"<module-section>.<error-name>"` when the
dispatch error identifies a runtime module and the metadata lookup
succeeds; the error's raw type tag when that lookup itself throws; and
`"<errorType>.<tokenSubtype>"` for a token-class error — concretely,
type `Token` with subtype `Frozen` rejects with exactly
`"Token.Frozen"`. -/
theorem polkadotTx_failure_message :
    (∀ (txHash : String) (st : TxStatus) (d : DispatchError),
        (st.isInBlock || st.isFinalized) = true →
        ((∀ s n, d.isModule = true → d.moduleError = some (s, n) →
            settlement txHash
                (.ok [{ status := st,
                        events := [{ sectionName := "system",
                                     method := "ExtrinsicFailed",
                                     data0 := d }] }]) =
              some (.reject (s ++ "." ++ n))) ∧
          (d.isModule = true → d.moduleError = none →
            settlement txHash
                (.ok [{ status := st,
                        events := [{ sectionName := "system",
                                     method := "ExtrinsicFailed",
                                     data0 := d }] }]) =
              some (.reject d.typeTag)) ∧
          (d.isModule = false → d.isToken = true →
            settlement txHash
                (.ok [{ status := st,
                        events := [{ sectionName := "system",
                                     method := "ExtrinsicFailed",
                                     data0 := d }] }]) =
              some (.reject (d.typeTag ++ "." ++ d.tokenType))))) ∧
      settlement "0xabc"
          (.ok [{ status := { isInBlock := true, isFinalized := false },
                  events := [{ sectionName := "system",
                               method := "ExtrinsicFailed",
                               data0 := tokenFrozenError }] }]) =
        some (.reject "Token.Frozen") := by
  constructor
  · intro txHash st d hst
    refine ⟨?_, ?_, ?_⟩
    · intro s n hm hmo
      simp [settlement, settleCalls, updateActions, eventActions, hst, hm,
        hmo]
    · intro hm hmo
      simp [settlement, settleCalls, updateActions, eventActions, hst, hm,
        hmo]
    · intro hm ht
      simp [settlement, settleCalls, updateActions, eventActions, hst, hm,
        ht]
  · rfl

/-- Witness for C3 at a concrete token-class dispatch error. -/
theorem polkadotTx_failure_message_witness :
    settlement "0xh"
        (.ok [{ status := { isInBlock := true, isFinalized := false },
                events := [{ sectionName := "system",
                             method := "ExtrinsicFailed",
                             data0 := { typeTag := "Tok", isModule := false,
                                        isToken := true, moduleError := none,
                                        tokenType := "Sub" } }] }]) =
      some (.reject ("Tok" ++ "." ++ "Sub")) :=
  ((polkadotTx_failure_message.1 "0xh"
      { isInBlock := true, isFinalized := false }
      { typeTag := "Tok", isModule := false, isToken := true,
        moduleError := none, tokenType := "Sub" } rfl).2.2 rfl rfl)

/-- Claim C6: a transport-level failure during submission rejects
immediately with that failure, without inspecting any events; the promise
never both resolves and rejects; and once settled, the settled value is
unchanged no matter how many further status updates (with duplicate or
conflicting events) arrive. -/
theorem polkadotTx_single_settlement :
    (∀ txHash e : String, settleCalls txHash (.err e) = [.reject e]) ∧
      (∀ (txHash : String) (inp : SubmissionInput),
        ¬ (∃ h m, settlement txHash inp = some (.resolve h) ∧
            settlement txHash inp = some (.reject m))) ∧
      (∀ (txHash : String) (trace extra : List SubmitResult)
          (a : SettleAction),
        settlement txHash (.ok trace) = some a →
        settlement txHash (.ok (trace ++ extra)) = some a) := by
  refine ⟨fun _ _ => rfl, ?_, ?_⟩
  · rintro txHash inp ⟨h, m, h1, h2⟩
    rw [h1] at h2
    exact SettleAction.noConfusion (Option.some.inj h2)
  · intro txHash trace extra a ha
    simp only [settlement, settleCalls, List.flatMap_append,
      List.head?_append] at ha ⊢
    simp [ha]

/-- Witness for C6: a settled call keeps its settled value when a
duplicate success update arrives afterwards. -/
theorem polkadotTx_single_settlement_witness :
    settlement "0xh" (.ok ([successUpdate] ++ [successUpdate])) =
      some (.resolve "0xh") :=
  polkadotTx_single_settlement.2.2 "0xh" [successUpdate] [successUpdate]
    (.resolve "0xh") rfl

/-- Claim C8 counterexample: the status subscription is NOT torn down
after settlement — the source discards the unsubscribe handle returned by
`signAndSend` — so after the first update settles the promise, a second
delivered update is still processed by the callback and produces another
settle attempt. -/
theorem polkadotTx_subscription_leak_counterexample :
    settlement "0xh" (.ok [successUpdate]) = some (.resolve "0xh") ∧
      settleCalls "0xh" (.ok [successUpdate, successUpdate]) =
        [.resolve "0xh", .resolve "0xh"] := by
  constructor <;> rfl

/-- Claim C8 (amended): no teardown happens on any path — every status
update delivered after settlement is still processed by the callback, its
settle attempts appended after the earlier ones; only the
first-settlement-wins promise semantics keeps them from having any
effect. -/
theorem polkadotTx_no_subscription_teardown :
    ∀ (txHash : String) (trace extra : List SubmitResult),
      settleCalls txHash (.ok (trace ++ extra)) =
        settleCalls txHash (.ok trace) ++
          extra.flatMap (updateActions txHash) := by
  intro txHash trace extra
  simp [settleCalls, List.flatMap_append]

/-- Claim C4: on a `"proof"` message the worker posts back exactly one
response envelope `{name := "proof", data := {proof, root, nullifierHash}}`
whose data is the external proof-generation primitive applied to the
deserialized note and the proof input built field-by-field — leaves,
relayer id, recipient id, leaf index converted to a decimal string, fee
and refund as decimal strings, and the proving key as a hex string (the
`u8aToHex` output with its first `"0x"` replaced by `""`; concretely,
bytes `[171, 1, 255]` become `"ab01ff"`). -/
theorem provingWorker_proof_response :
    ∀ (ν : Type) (deserialize : String → ν)
      (generate : ν → ProofInputModel → ProofI)
      (i : ProvingManagerSetupInput),
      handleMessage deserialize generate
          { firstKey := some "proof", proofPayload := some i } =
        [.post "proof" (wrapperProof deserialize generate i)] ∧
      wrapperProof deserialize generate i =
        { proof := (generate (deserialize i.note) (mkProofInput i)).proof,
          root := (generate (deserialize i.note) (mkProofInput i)).root,
          nullifierHash :=
            (generate (deserialize i.note) (mkProofInput i)).nullifierHash } ∧
      mkProofInput i =
        { leaves := i.leaves, relayer := i.relayer,
          recipient := i.recipient, leafIndex := toString i.leafIndex,
          fee := toString i.fee, refund := toString i.refund,
          pk := replaceFirst (u8aToHex i.provingKey) "0x" "" } ∧
      replaceFirst (u8aToHex [171, 1, 255]) "0x" "" = "ab01ff" := by
  intro ν deserialize generate i
  exact ⟨rfl, rfl, rfl, by decide⟩

/-- `workerStep` never touches `posts` except to append a single
`("proof", _)` envelope when a pending job completes. -/
theorem workerStep_posts {ν : Type} (d : String → ν)
    (g : ν → ProofInputModel → ProofI) (s : WorkerState) (e : WorkerEvent) :
    (workerStep d g s e).posts = s.posts ∨
      ∃ x, (workerStep d g s e).posts = s.posts ++ [("proof", x)] := by
  unfold workerStep
  repeat' split
  all_goals first
  | exact Or.inl rfl
  | exact Or.inr ⟨_, rfl⟩

/-- A step from a terminated worker does nothing. -/
theorem workerStep_terminated {ν : Type} (d : String → ν)
    (g : ν → ProofInputModel → ProofI) (s : WorkerState) (e : WorkerEvent)
    (h : s.terminated = true) : workerStep d g s e = s := by
  simp [workerStep, h]

/-- Termination is absorbing: a terminated worker ignores every further
event. -/
theorem foldl_workerStep_terminated {ν : Type} (d : String → ν)
    (g : ν → ProofInputModel → ProofI) :
    ∀ (evs : List WorkerEvent) (s : WorkerState), s.terminated = true →
      evs.foldl (workerStep d g) s = s := by
  intro evs
  induction evs with
  | nil => intro s _; rfl
  | cons e evs ih =>
    intro s h
    rw [List.foldl_cons, workerStep_terminated d g s e h, ih s h]

/-- Every envelope posted during a run is named `"proof"`, provided that
was true of the starting state. -/
theorem foldl_workerStep_posts_name {ν : Type} (d : String → ν)
    (g : ν → ProofInputModel → ProofI) :
    ∀ (evs : List WorkerEvent) (s : WorkerState),
      (∀ pr ∈ s.posts, pr.1 = "proof") →
      ∀ pr ∈ (evs.foldl (workerStep d g) s).posts, pr.1 = "proof" := by
  intro evs
  induction evs with
  | nil => intro s h; exact h
  | cons e evs ih =>
    intro s h
    refine ih (workerStep d g s e) ?_
    intro pr hpr
    rcases workerStep_posts d g s e with heq | ⟨x, heq⟩
    · exact h pr (heq ▸ hpr)
    · rw [heq] at hpr
      rcases List.mem_append.mp hpr with hin | hone
      · exact h pr hin
      · rw [List.mem_singleton.mp hone]

/-- Claim C5: a `"destroy"` message terminates the worker from any state;
termination is absorbing, so a proof job still pending when the destroy is
processed never delivers its response afterwards (the caller-side pending
result is abandoned); and no posted envelope is ever anything but a
`"proof"` response — abandonment is never converted into an error
value. -/
theorem provingWorker_destroy_abandonment :
    (∀ (ν : Type) (d : String → ν) (g : ν → ProofInputModel → ProofI)
        (s : WorkerState) (payload : Option ProvingManagerSetupInput),
        (workerStep d g s
            (.message { firstKey := some "destroy",
                        proofPayload := payload })).terminated = true) ∧
      (∀ (ν : Type) (d : String → ν) (g : ν → ProofInputModel → ProofI)
          (evs extra : List WorkerEvent),
        (runWorker d g evs).terminated = true →
        runWorker d g (evs ++ extra) = runWorker d g evs) ∧
      (∀ (ν : Type) (d : String → ν) (g : ν → ProofInputModel → ProofI)
          (evs : List WorkerEvent),
        ∀ pr ∈ (runWorker d g evs).posts, pr.1 = "proof") := by
  refine ⟨?_, ?_, ?_⟩
  · intro ν d g s payload
    by_cases hs : s.terminated = true
    · simp [workerStep, hs]
    · have hs2 : s.terminated = false := by simpa using hs
      simp [workerStep, hs2]
  · intro ν d g evs extra h
    rw [runWorker, List.foldl_append]
    exact foldl_workerStep_terminated d g extra _ h
  · intro ν d g evs
    refine foldl_workerStep_posts_name d g evs initialWorkerState ?_
    intro pr hpr
    simp [initialWorkerState] at hpr

/-- Witness for C5: a `"proof"` message followed by `"destroy"` leaves the
job pending forever — its later completion event changes nothing, so no
response envelope is ever posted for it. -/
theorem provingWorker_destroy_abandonment_witness :
    runWorker (fun s => s)
        (fun _ _ => ({ proof := [], root := [], nullifierHash := [] } :
          ProofI))
        ([.message { firstKey := some "proof",
                     proofPayload := some exampleSetupInput },
          .message { firstKey := some "destroy", proofPayload := none }] ++
          [.complete 0]) =
      runWorker (fun s => s)
        (fun _ _ => ({ proof := [], root := [], nullifierHash := [] } :
          ProofI))
        [.message { firstKey := some "proof",
                    proofPayload := some exampleSetupInput },
         .message { firstKey := some "destroy", proofPayload := none }] :=
  provingWorker_destroy_abandonment.2.1 String (fun s => s)
    (fun _ _ => { proof := [], root := [], nullifierHash := [] })
    [.message { firstKey := some "proof",
                proofPayload := some exampleSetupInput },
     .message { firstKey := some "destroy", proofPayload := none }]
    [.complete 0] rfl

/-- Claim C10: a message whose first key is neither `"proof"` nor
`"destroy"` — including an empty object, whose first key is absent —
matches no case of the switch (which has no default): the handler performs
no action at all — nothing is posted, the worker is not terminated, and no
throwing code path is reached. -/
theorem provingWorker_unknown_message_ignored :
    ∀ (ν : Type) (deserialize : String → ν)
      (generate : ν → ProofInputModel → ProofI) (fk : Option String)
      (payload : Option ProvingManagerSetupInput),
      fk ≠ some "proof" → fk ≠ some "destroy" →
      handleMessage deserialize generate
          { firstKey := fk, proofPayload := payload } = [] := by
  intro ν deserialize generate fk payload h1 h2
  match fk with
  | none => rfl
  | some k =>
    have hk1 : ¬ k = "proof" := fun hc => h1 (by rw [hc])
    have hk2 : ¬ k = "destroy" := fun hc => h2 (by rw [hc])
    simp [handleMessage, hk1, hk2]

/-- Witness for C10 at a concrete unknown first key. -/
theorem provingWorker_unknown_message_ignored_witness :
    handleMessage (fun s => s)
        (fun _ _ => ({ proof := [], root := [], nullifierHash := [] } :
          ProofI))
        { firstKey := some "network", proofPayload := none } = [] :=
  provingWorker_unknown_message_ignored String (fun s => s)
    (fun _ _ => { proof := [], root := [], nullifierHash := [] })
    (some "network") none (by decide) (by decide)

/-- Claim C7 counterexample: the source type does not enforce the tagged
union — the all-absent message is a `RelayerMessage` with zero populated
keys, a message may populate two keys at once, and a `Withdraw` payload
may carry `connected` (neither `finalized` nor `errored`), violating the
claimed withdraw shape. -/
theorem relayerMessage_tagged_union_counterexample :
    populatedKeys { withdraw := none, error := none, network := none } = 0 ∧
      populatedKeys
          { withdraw := some { finalized := none, errored := none,
                               connected := some "connected",
                               connecting := none },
            error := some "boom", network := none } = 2 ∧
      withdrawShapeOk { finalized := none, errored := none,
                        connected := some "connected",
                        connecting := none } = false := by
  refine ⟨rfl, rfl, rfl⟩

/-- Claim C7 (amended): in the source schema the keys `withdraw`, `error`
and `network` are independently optional — values with zero or with
several populated keys inhabit the type, and a `Withdraw` payload also has
optional `connected` and `connecting` fields; every message of the claimed
tagged union is representable with exactly one populated key and a
finalized-xor-errored-only withdraw payload, but that shape is a protocol
convention, not enforced by the type. -/
theorem relayerMessage_schema_shape :
    (∀ sMsg : RelayerMessageSpec,
        populatedKeys (specToMessage sMsg) = 1 ∧
          (specToMessage sMsg).withdraw.all withdrawShapeOk = true) ∧
      (∃ m : RelayerMessage, populatedKeys m = 0) ∧
      (∃ m : RelayerMessage, populatedKeys m = 2) ∧
      (∃ w : Withdraw, w.connected.isSome = true) := by
  refine ⟨?_, ⟨⟨none, none, none⟩, rfl⟩, ⟨⟨none, some "e", some "n"⟩, rfl⟩,
    ⟨⟨none, none, some "c", none⟩, rfl⟩⟩
  intro sMsg
  cases sMsg <;> exact ⟨rfl, rfl⟩

end WebbJs
